import Mathlib

/-!
Verification development for the Otto mock SSE server
(`src/simple-sse-server.py`).

The server is shallowly embedded: `do_GET` produces the list of observable
actions (status line, headers, SSE frame writes, pacing sleeps, local log
prints, or an uncaught exception escaping the handler) that the Python
handler performs for one request.  Nondeterministic inputs of the handler —
the millisecond clock sampled once per frame id, the wall-clock timestamp
string, and the success or failure of each socket write — are passed in as
explicit parameters.
-/

namespace OttoSSE

/-- One mock log record (the dict literals at lines 33–44 of the source). -/
structure LogEntry where
  workerId : String
  level : String
  message : String
  timestamp : String
deriving DecidableEq

/-- The fixed catalog `mock_logs` (lines 32–45). -/
def mock_logs : List LogEntry := [
  ⟨"worker-1", "INFO", "=== 빌드 시작 ===", "2025-09-09T11:00:00Z"⟩,
  ⟨"worker-1", "INFO", "프로젝트 의존성 설치 중...", "2025-09-09T11:00:01Z"⟩,
  ⟨"worker-1", "INFO", "패키지 다운로드: axios@5.2.2", "2025-09-09T11:00:02Z"⟩,
  ⟨"worker-2", "DEBUG", "TypeScript 컴파일 시작", "2025-09-09T11:00:03Z"⟩,
  ⟨"worker-2", "INFO", "컴파일 완료: 125개 파일 처리", "2025-09-09T11:00:05Z"⟩,
  ⟨"worker-1", "INFO", "=== 테스트 실행 시작 ===", "2025-09-09T11:00:06Z"⟩,
  ⟨"worker-3", "WARN", "WARNING: deprecated package detected", "2025-09-09T11:00:07Z"⟩,
  ⟨"worker-2", "INFO", "Jest 테스트 실행 중...", "2025-09-09T11:00:08Z"⟩,
  ⟨"worker-2", "INFO", "테스트 통과: should authenticate user", "2025-09-09T11:00:09Z"⟩,
  ⟨"worker-1", "INFO", "=== 배포 시작 ===", "2025-09-09T11:00:10Z"⟩,
  ⟨"worker-3", "INFO", "Docker 이미지 빌드 중...", "2025-09-09T11:00:12Z"⟩,
  ⟨"worker-3", "INFO", "배포 완료: deploy-1757418000", "2025-09-09T11:00:15Z"⟩]

/-- Payload carried in the `data:` field of an SSE frame: either one catalog
entry serialized as JSON (line 53) or the completion object (lines 61–65). -/
inductive FramePayload where
  | log (entry : LogEntry)
  | complete (message : String) (timestamp : String) (totalLogs : Int)
deriving DecidableEq

/-- One SSE frame `event: _\ndata: _\nid: _\n\n` (lines 53 and 66). -/
structure Frame where
  event : String
  payload : FramePayload
  id : String
deriving DecidableEq

/-- Frame id of the i-th log frame: `f"{int(time.time()*1000)}-{i}"`
(line 53), where `t` is the sampled millisecond clock. -/
def logId (t i : Nat) : String := Nat.repr t ++ "-" ++ Nat.repr i

/-- Frame id of the completion frame: `f"{int(time.time()*1000)}-complete"`
(line 66). -/
def completeId (t : Nat) : String := Nat.repr t ++ "-complete"

/-- The log frame written at loop index `i` with clock sample `t` (line 53). -/
def mkLogFrame (e : LogEntry) (t i : Nat) : Frame :=
  { event := "log", payload := .log e, id := logId t i }

/-- `"message"` field of the completion payload (line 62). -/
def completeMessage : String := "목업 로그 스트림이 완료되었습니다"

/-- The completion frame (lines 61–66): `totalLogs` is the clamped (but not
lower-bounded) `count` computed at line 48. -/
def mkCompleteFrame (t : Nat) (nowStr : String) (count : Int) : Frame :=
  { event := "complete", payload := .complete completeMessage nowStr count,
    id := completeId t }

/-- Outcome of one `self.wfile.write`/`flush` pair, supplied by the
environment: success, `BrokenPipeError` (line 70), or any other
exception (line 72). -/
inductive WriteResult where
  | ok
  | brokenPipe
  | otherError (msg : String)
deriving DecidableEq

/-- The environment in which every write succeeds. -/
def allOk : Nat → WriteResult := fun _ => .ok

/-- Message printed for `BrokenPipeError` (line 71). -/
def brokenPipeMsg : String := "클라이언트 연결이 종료되었습니다"

/-- Message printed for any other streaming exception (line 73). -/
def sseErrorMsg (msg : String) : String := "SSE 스트리밍 에러: " ++ msg

/-- Local log text produced by the two `except` clauses for a failed write. -/
def errMsgOf : WriteResult → String
  | .ok => ""
  | .brokenPipe => brokenPipeMsg
  | .otherError m => sseErrorMsg m

/-- Observable action of the handler, in program order. -/
inductive Event where
  | sendStatus (code : Nat)
  | sendHeader (name value : String)
  | endHeaders
  | writeFrame (f : Frame)
  | sleep (intervalMs : String)
  | printLog (s : String)
  | writeHealthBody (status timestamp : String) (activeConnections : Nat)
      (server : String)
  | writeNotFoundBody (message error : String) (statusCode : Nat)
      (server : String)
  | raiseError
deriving DecidableEq

/-- Acceptance of `float(s)` (line 47) for plain decimal literals: an
optional sign, then digits with at most one dot.  (Python's `float` also
accepts exponents, `inf`/`nan` and surrounding whitespace; none of those
forms occur in this development, so the model covers the decimal core.) -/
def isPyFloat (s : String) : Bool :=
  let l := match s.data with
    | '+' :: r => r
    | '-' :: r => r
    | r => r
  match l.span Char.isDigit with
  | (ds, []) => !ds.isEmpty
  | (ds, '.' :: r2) => (!ds.isEmpty || !r2.isEmpty) && r2.all Char.isDigit
  | _ => false

/-- `float(query.get('interval', [1000])[0])` (line 47): the default list
`[1000]` holds the integer `1000`, whose `float(...)` conversion always
succeeds; a present parameter must parse or the exception escapes.  The
interval value is kept as its source text: the handler only ever passes it
to `time.sleep` and no arithmetic on it is needed. -/
def parseIntervalParam : Option String → Option String
  | none => some "1000"
  | some s => if isPyFloat s then some s else none

/-- Numeric value of a string of decimal digits (most significant first). -/
def digitsVal (l : List Char) : Nat :=
  l.foldl (fun n c => n * 10 + (c.toNat - '0'.toNat)) 0

/-- Acceptance and value of `int(s)` (line 48) for optionally `-`-signed
decimal digit strings.  (Python's `int` additionally strips whitespace and
accepts `+` and `_` separators; no request in this development uses those
forms.) -/
def pyInt? (s : String) : Option Int :=
  match s.data with
  | [] => none
  | '-' :: ds =>
    if !ds.isEmpty && ds.all Char.isDigit then some (-(digitsVal ds : Int))
    else none
  | l =>
    if l.all Char.isDigit then some (digitsVal l : Int) else none

/-- `int(query.get('count', [len(mock_logs)])[0])` (line 48): the default is
the integer `len(mock_logs)`; a present parameter must parse or the
exception escapes. -/
def parseCountParam : Option String → Option Int
  | none => some (mock_logs.length : Int)
  | some s => pyInt? s

/-- Python list slicing `l[:c]` (line 51), including the negative-index
semantics: a negative `c` drops the last `|c|` elements. -/
def pySlice {α : Type} (l : List α) (c : Int) : List α :=
  if 0 ≤ c then l.take c.toNat
  else l.take (l.length - (-c).toNat)

/-- The `for i, log_entry in enumerate(mock_logs[:count])` loop
(lines 51–58) inside the `try`.  `ts i` is the millisecond clock sampled
for frame `i`, `wr i` the outcome of its write; a failed write raises,
the surrounding `except` prints, and the loop (and the completion write)
is abandoned.  Returns the events together with whether the `try` body is
still running after the loop (no exception was raised). -/
def streamLoop (intervalMs : String) (count : Int) (ts : Nat → Nat)
    (wr : Nat → WriteResult) : List LogEntry → Nat → List Event × Bool
  | [], _ => ([], true)
  | e :: rest, i =>
    let fr := mkLogFrame e (ts i) i
    match wr i with
    | .brokenPipe => ([.writeFrame fr, .printLog brokenPipeMsg], false)
    | .otherError m => ([.writeFrame fr, .printLog (sseErrorMsg m)], false)
    | .ok =>
      let sleeps : List Event :=
        if (i : Int) < count - 1 then [.sleep intervalMs] else []
      let next := streamLoop intervalMs count ts wr rest (i + 1)
      (Event.writeFrame fr :: sleeps ++ next.1, next.2)

/-- Lines 47–73: clamp `count` (line 48), run the emission loop, and on
normal loop exit attempt the completion frame write (lines 61–68), whose
failure is caught by the same `except` clauses. -/
def streamBody (intervalMs : String) (countReq : Int) (ts : Nat → Nat)
    (nowStr : String) (wr : Nat → WriteResult) : List Event :=
  let count := min countReq (mock_logs.length : Int)
  let entries := pySlice mock_logs count
  let run := streamLoop intervalMs count ts wr entries 0
  if run.2 then
    let k := entries.length
    let cf := mkCompleteFrame (ts k) nowStr count
    match wr k with
    | .ok => run.1 ++ [.writeFrame cf]
    | .brokenPipe => run.1 ++ [.writeFrame cf, .printLog brokenPipeMsg]
    | .otherError m => run.1 ++ [.writeFrame cf, .printLog (sseErrorMsg m)]
  else run.1

/-- The three CORS headers added by `set_cors_headers` (lines 17–20). -/
def corsHeaders : List Event :=
  [.sendHeader "Access-Control-Allow-Origin" "*",
   .sendHeader "Access-Control-Allow-Methods" "GET, OPTIONS",
   .sendHeader "Access-Control-Allow-Headers" "Cache-Control"]

/-- The streaming response head (lines 24–29), sent before the query
parameters are even parsed. -/
def sseHeaders : List Event :=
  [.sendStatus 200,
   .sendHeader "Content-Type" "text/event-stream",
   .sendHeader "Cache-Control" "no-cache",
   .sendHeader "Connection" "keep-alive"] ++ corsHeaders ++ [.endHeaders]

/-- One GET request: the parsed path and the raw `interval` / `count`
query parameters (absent ↦ `none`), as extracted at lines 13–14. -/
structure Request where
  path : String
  intervalParam : Option String
  countParam : Option String

/-- The only path the streaming branch matches (line 22). -/
def mockStreamPath : String :=
  "/api/v1/log-streaming/test/mock-stream/test-task-123"

/-- The health-check path (line 75). -/
def healthPath : String := "/api/v1/log-streaming/health"

/-- `SSEHandler.do_GET` (lines 12–103) as a trace of observable events.
On the streaming branch the headers go out first (lines 24–29); a query
parameter that fails to parse then raises an uncaught exception
(lines 47–48), modeled as `raiseError`. -/
def do_GET (req : Request) (ts : Nat → Nat) (nowStr : String)
    (wr : Nat → WriteResult) : List Event :=
  if req.path = mockStreamPath then
    sseHeaders ++
      match parseIntervalParam req.intervalParam,
            parseCountParam req.countParam with
      | some intervalMs, some c => streamBody intervalMs c ts nowStr wr
      | _, _ => [.raiseError]
  else if req.path = healthPath then
    [.sendStatus 200, .sendHeader "Content-Type" "application/json"]
      ++ corsHeaders
      ++ [.endHeaders,
          .writeHealthBody "healthy" nowStr 0 "Python Mock Server"]
  else
    [.sendStatus 404, .sendHeader "Content-Type" "application/json"]
      ++ corsHeaders
      ++ [.endHeaders,
          .writeNotFoundBody ("Cannot GET " ++ req.path) "Not Found" 404
            "Python Mock Server"]

/-- All frames attempted on the wire, in order. -/
def framesOf (tr : List Event) : List Frame :=
  tr.filterMap fun e => match e with
    | .writeFrame f => some f
    | _ => none

/-- The `log` frames of a trace. -/
def logFramesOf (tr : List Event) : List Frame :=
  (framesOf tr).filter fun f => f.event == "log"

/-- The `complete` frames of a trace. -/
def completeFramesOf (tr : List Event) : List Frame :=
  (framesOf tr).filter fun f => f.event == "complete"

/-- Number of pacing suspensions in a trace. -/
def sleepCount (tr : List Event) : Nat :=
  (tr.filter fun e => match e with | .sleep _ => true | _ => false).length

/-- `totalLogs` field of a completion payload. -/
def totalLogsOf (f : Frame) : Option Int :=
  match f.payload with
  | .complete _ _ t => some t
  | .log _ => none

/-! ### Shape of the emitted traces -/

/-- The frames the loop writes for the entry list `l` starting at loop
index `i`. -/
def frameList (ts : Nat → Nat) : List LogEntry → Nat → List Frame
  | [], _ => []
  | e :: rest, i => mkLogFrame e (ts i) i :: frameList ts rest (i + 1)

/-- Loop trace with a pacing suspension between every two adjacent log
frames and none after the last one. -/
def pacedTrace (intervalMs : String) (ts : Nat → Nat) :
    List LogEntry → Nat → List Event
  | [], _ => []
  | [e], i => [Event.writeFrame (mkLogFrame e (ts i) i)]
  | e :: r :: rs, i =>
    Event.writeFrame (mkLogFrame e (ts i) i) :: Event.sleep intervalMs ::
      pacedTrace intervalMs ts (r :: rs) (i + 1)

/-- Loop trace with no pacing suspensions at all. -/
def writeTrace (ts : Nat → Nat) : List LogEntry → Nat → List Event
  | [], _ => []
  | e :: rest, i =>
    Event.writeFrame (mkLogFrame e (ts i) i) :: writeTrace ts rest (i + 1)

theorem framesOf_append (a b : List Event) :
    framesOf (a ++ b) = framesOf a ++ framesOf b :=
  List.filterMap_append a b _

theorem framesOf_sseHeaders : framesOf sseHeaders = [] := rfl

theorem framesOf_writeFrame_cons (f : Frame) (tr : List Event) :
    framesOf (Event.writeFrame f :: tr) = f :: framesOf tr := rfl

theorem framesOf_sleep_cons (s : String) (tr : List Event) :
    framesOf (Event.sleep s :: tr) = framesOf tr := rfl

theorem framesOf_pacedTrace (intervalMs : String) (ts : Nat → Nat) :
    ∀ (l : List LogEntry) (i : Nat),
      framesOf (pacedTrace intervalMs ts l i) = frameList ts l i
  | [], _ => rfl
  | [e], _ => rfl
  | e :: r :: rs, i => by
    have ih := framesOf_pacedTrace intervalMs ts (r :: rs) (i + 1)
    show framesOf (Event.writeFrame (mkLogFrame e (ts i) i) ::
      Event.sleep intervalMs :: pacedTrace intervalMs ts (r :: rs) (i + 1))
        = mkLogFrame e (ts i) i :: frameList ts (r :: rs) (i + 1)
    rw [framesOf_writeFrame_cons, framesOf_sleep_cons, ih]

theorem framesOf_writeTrace (ts : Nat → Nat) :
    ∀ (l : List LogEntry) (i : Nat),
      framesOf (writeTrace ts l i) = frameList ts l i
  | [], _ => rfl
  | e :: rest, i => by
    have ih := framesOf_writeTrace ts rest (i + 1)
    show framesOf (Event.writeFrame (mkLogFrame e (ts i) i) ::
      writeTrace ts rest (i + 1)) = mkLogFrame e (ts i) i :: frameList ts rest (i + 1)
    rw [framesOf_writeFrame_cons, ih]

theorem frameList_map_payload (ts : Nat → Nat) :
    ∀ (l : List LogEntry) (i : Nat),
      (frameList ts l i).map Frame.payload = l.map FramePayload.log
  | [], _ => rfl
  | e :: rest, i => by
    simp [frameList, mkLogFrame, frameList_map_payload ts rest (i + 1)]

theorem frameList_length (ts : Nat → Nat) :
    ∀ (l : List LogEntry) (i : Nat), (frameList ts l i).length = l.length
  | [], _ => rfl
  | e :: rest, i => by
    simp [frameList, frameList_length ts rest (i + 1)]

theorem frameList_filter_log (ts : Nat → Nat) :
    ∀ (l : List LogEntry) (i : Nat),
      (frameList ts l i).filter (fun f => f.event == "log") = frameList ts l i
  | [], _ => rfl
  | e :: rest, i => by
    simp [frameList, mkLogFrame, List.filter_cons,
      frameList_filter_log ts rest (i + 1)]

theorem frameList_filter_complete (ts : Nat → Nat) :
    ∀ (l : List LogEntry) (i : Nat),
      (frameList ts l i).filter (fun f => f.event == "complete") = []
  | [], _ => rfl
  | e :: rest, i => by
    simp [frameList, mkLogFrame, List.filter_cons,
      frameList_filter_complete ts rest (i + 1)]

theorem sleepCount_append (a b : List Event) :
    sleepCount (a ++ b) = sleepCount a + sleepCount b := by
  simp [sleepCount, List.filter_append]

theorem sleepCount_writeFrame_cons (f : Frame) (tr : List Event) :
    sleepCount (Event.writeFrame f :: tr) = sleepCount tr := rfl

theorem sleepCount_sleep_cons (s : String) (tr : List Event) :
    sleepCount (Event.sleep s :: tr) = sleepCount tr + 1 := by
  simp [sleepCount, List.filter_cons]

theorem sleepCount_pacedTrace (intervalMs : String) (ts : Nat → Nat) :
    ∀ (l : List LogEntry) (i : Nat),
      sleepCount (pacedTrace intervalMs ts l i) = l.length - 1
  | [], _ => rfl
  | [e], _ => rfl
  | e :: r :: rs, i => by
    have ih := sleepCount_pacedTrace intervalMs ts (r :: rs) (i + 1)
    show sleepCount (Event.writeFrame (mkLogFrame e (ts i) i) ::
      Event.sleep intervalMs :: pacedTrace intervalMs ts (r :: rs) (i + 1))
        = (e :: r :: rs).length - 1
    rw [sleepCount_writeFrame_cons, sleepCount_sleep_cons, ih]
    simp

/-! ### Characterizing the streaming loop when all writes succeed -/

theorem streamLoop_allOk (intervalMs : String) (c : Int) (ts : Nat → Nat) :
    ∀ (l : List LogEntry) (i : Nat), (i : Int) + l.length = c →
      streamLoop intervalMs c ts allOk l i = (pacedTrace intervalMs ts l i, true)
  | [], _, _ => rfl
  | e :: rest, i, h => by
    cases rest with
    | nil =>
      have hc : ¬ ((i : Int) < c - 1) := by simp at h; omega
      simp [streamLoop, pacedTrace, allOk, hc]
    | cons r rs =>
      have hc : (i : Int) < c - 1 := by simp at h; omega
      have ih := streamLoop_allOk intervalMs c ts (r :: rs) (i + 1)
        (by simp at h ⊢; omega)
      have step : streamLoop intervalMs c ts allOk (e :: r :: rs) i
          = (Event.writeFrame (mkLogFrame e (ts i) i) ::
              ((if (i : Int) < c - 1 then [Event.sleep intervalMs] else [])
                ++ (streamLoop intervalMs c ts allOk (r :: rs) (i + 1)).1),
             (streamLoop intervalMs c ts allOk (r :: rs) (i + 1)).2) := rfl
      rw [step, ih, if_pos hc]
      rfl

theorem streamLoop_allOk_nonpos (intervalMs : String) (c : Int)
    (hc : c ≤ 0) (ts : Nat → Nat) :
    ∀ (l : List LogEntry) (i : Nat),
      streamLoop intervalMs c ts allOk l i = (writeTrace ts l i, true)
  | [], _ => rfl
  | e :: rest, i => by
    have h : ¬ ((i : Int) < c - 1) := by omega
    have ih := streamLoop_allOk_nonpos intervalMs c hc ts rest (i + 1)
    have step : streamLoop intervalMs c ts allOk (e :: rest) i
        = (Event.writeFrame (mkLogFrame e (ts i) i) ::
            ((if (i : Int) < c - 1 then [Event.sleep intervalMs] else [])
              ++ (streamLoop intervalMs c ts allOk rest (i + 1)).1),
           (streamLoop intervalMs c ts allOk rest (i + 1)).2) := rfl
    rw [step, ih, if_neg h]
    rfl

theorem mock_logs_length : mock_logs.length = 12 := rfl

/-- Trace of the streaming body for a non-negative requested count when all
writes succeed: the first `min c 12` catalog entries as paced log frames,
then the completion frame. -/
theorem streamBody_allOk_nonneg (intervalMs : String) (c : Int) (hc : 0 ≤ c)
    (ts : Nat → Nat) (nowStr : String) :
    streamBody intervalMs c ts nowStr allOk
      = pacedTrace intervalMs ts (mock_logs.take (min c 12).toNat) 0
          ++ [Event.writeFrame
                (mkCompleteFrame (ts (min c 12).toNat) nowStr (min c 12))] := by
  have hlen : (mock_logs.length : Int) = 12 := by decide
  have h0 : 0 ≤ min c 12 := by omega
  have hsl : pySlice mock_logs (min c 12)
      = mock_logs.take (min c 12).toNat := by
    simp [pySlice, h0]
  have hklen : (mock_logs.take (min c 12).toNat).length = (min c 12).toNat := by
    rw [List.length_take, mock_logs_length]
    omega
  have hinv : ((0 : Nat) : Int) + (mock_logs.take (min c 12).toNat).length
      = min c 12 := by
    rw [hklen]; omega
  have hloop := streamLoop_allOk intervalMs (min c 12) ts
    (mock_logs.take (min c 12).toNat) 0 hinv
  simp only [streamBody, hlen, hsl, hloop, hklen, allOk]
  simp

/-- Trace of the streaming body for a negative requested count when all
writes succeed: `count` stays negative, Python's negative slice keeps the
first `12 - |c|` entries, no pacing suspension ever fires, and the
completion frame carries the negative `count`. -/
theorem streamBody_allOk_neg (intervalMs : String) (c : Int) (hc : c < 0)
    (ts : Nat → Nat) (nowStr : String) :
    streamBody intervalMs c ts nowStr allOk
      = writeTrace ts (mock_logs.take (12 - (-c).toNat)) 0
          ++ [Event.writeFrame
                (mkCompleteFrame (ts (12 - (-c).toNat)) nowStr c)] := by
  have hlen : (mock_logs.length : Int) = 12 := by decide
  have hmin : min c (mock_logs.length : Int) = c := by rw [hlen]; omega
  have hneg : ¬ (0 ≤ c) := by omega
  have hsl : pySlice mock_logs c = mock_logs.take (12 - (-c).toNat) := by
    simp [pySlice, hneg, mock_logs_length]
  have hklen : (mock_logs.take (12 - (-c).toNat)).length
      = 12 - (-c).toNat := by
    simp [List.length_take, mock_logs_length]
  have hloop := streamLoop_allOk_nonpos intervalMs c (by omega) ts
    (mock_logs.take (12 - (-c).toNat)) 0
  simp only [streamBody, hmin, hsl, hloop, hklen, allOk]
  simp

/-! ### Decimal renderings: digit content and injectivity

The frame ids are built from `Nat.repr` of the millisecond clock and of the
loop index.  Uniqueness of the ids rests on: a decimal rendering contains
only digits (hence no `'-'`), the text before the first `'-'` of an id
therefore determines its two components, and `Nat.repr` is injective. -/

theorem digitChar_isDigit (m : Nat) (h : m < 10) :
    (Nat.digitChar m).isDigit = true := by
  interval_cases m <;> decide

theorem digitChar_val (m : Nat) (h : m < 10) :
    (Nat.digitChar m).toNat - '0'.toNat = m := by
  interval_cases m <;> decide

theorem toDigitsCore_digits (f : Nat) :
    ∀ (n : Nat) (l : List Char), (∀ c ∈ l, c.isDigit = true) →
      ∀ c ∈ Nat.toDigitsCore 10 f n l, c.isDigit = true := by
  induction f with
  | zero => intro n l hl; simpa [Nat.toDigitsCore] using hl
  | succ f ih =>
    intro n l hl c hc
    simp only [Nat.toDigitsCore] at hc
    by_cases h10 : n / 10 = 0
    · rw [if_pos h10] at hc
      rcases List.mem_cons.mp hc with rfl | hc2
      · exact digitChar_isDigit _ (Nat.mod_lt _ (by norm_num))
      · exact hl c hc2
    · rw [if_neg h10] at hc
      refine ih (n / 10) (Nat.digitChar (n % 10) :: l) ?_ c hc
      intro d hd
      rcases List.mem_cons.mp hd with rfl | hd2
      · exact digitChar_isDigit _ (Nat.mod_lt _ (by norm_num))
      · exact hl d hd2

theorem repr_data_digits (n : Nat) :
    ∀ c ∈ (Nat.repr n).data, c.isDigit = true := by
  have hdata : (Nat.repr n).data = Nat.toDigitsCore 10 (n + 1) n [] := rfl
  rw [hdata]
  exact toDigitsCore_digits (n + 1) n [] (by intro c hc; cases hc)

theorem repr_no_dash (n : Nat) : '-' ∉ (Nat.repr n).data := by
  intro hm
  exact absurd (repr_data_digits n '-' hm) (by decide)

theorem toDigitsCore_eq_append (f : Nat) :
    ∀ (n : Nat) (l : List Char),
      Nat.toDigitsCore 10 f n l = Nat.toDigitsCore 10 f n [] ++ l := by
  induction f with
  | zero => intro n l; simp [Nat.toDigitsCore]
  | succ f ih =>
    intro n l
    simp only [Nat.toDigitsCore]
    by_cases h10 : n / 10 = 0
    · simp [h10]
    · rw [if_neg h10, if_neg h10, ih (n / 10) (Nat.digitChar (n % 10) :: l),
        ih (n / 10) [Nat.digitChar (n % 10)]]
      simp

theorem digitsVal_append_singleton (l : List Char) (d : Char) :
    digitsVal (l ++ [d]) = digitsVal l * 10 + (d.toNat - '0'.toNat) := by
  simp [digitsVal, List.foldl_append]

theorem toDigitsCore_val (f : Nat) :
    ∀ n, n < f → digitsVal (Nat.toDigitsCore 10 f n []) = n := by
  induction f with
  | zero => intro n h; omega
  | succ f ih =>
    intro n h
    simp only [Nat.toDigitsCore]
    by_cases h10 : n / 10 = 0
    · rw [if_pos h10]
      have h9 : n % 10 = n := by omega
      rw [h9]
      have hv := digitChar_val n (by omega)
      simpa [digitsVal] using hv
    · rw [if_neg h10, toDigitsCore_eq_append f (n / 10) [Nat.digitChar (n % 10)],
        digitsVal_append_singleton, ih (n / 10) (by omega),
        digitChar_val (n % 10) (by omega)]
      omega

theorem repr_data_val (n : Nat) : digitsVal (Nat.repr n).data = n :=
  toDigitsCore_val (n + 1) n (Nat.lt_succ_self n)

theorem repr_data_inj {m n : Nat}
    (h : (Nat.repr m).data = (Nat.repr n).data) : m = n := by
  have hm := repr_data_val m
  rw [h, repr_data_val n] at hm
  omega

theorem append_dash_inj :
    ∀ (a b x y : List Char), '-' ∉ a → '-' ∉ b →
      a ++ '-' :: x = b ++ '-' :: y → a = b ∧ x = y := by
  intro a
  induction a with
  | nil =>
    intro b x y _ hb h
    cases b with
    | nil => simpa using h
    | cons c b' =>
      simp only [List.nil_append, List.cons_append, List.cons.injEq] at h
      exact absurd (by rw [← h.1]; exact List.mem_cons_self _ _) hb
  | cons c a' iha =>
    intro b x y ha hb h
    cases b with
    | nil =>
      simp only [List.cons_append, List.nil_append, List.cons.injEq] at h
      exact absurd (by rw [h.1]; exact List.mem_cons_self _ _) ha
    | cons d b' =>
      simp only [List.cons_append, List.cons.injEq] at h
      obtain ⟨hcd, h2⟩ := h
      have ha' : '-' ∉ a' := fun hm => ha (List.mem_cons_of_mem _ hm)
      have hb' : '-' ∉ b' := fun hm => hb (List.mem_cons_of_mem _ hm)
      obtain ⟨he, hxy⟩ := iha b' x y ha' hb' h2
      exact ⟨by rw [hcd, he], hxy⟩

theorem logId_data (t i : Nat) :
    (logId t i).data = (Nat.repr t).data ++ '-' :: (Nat.repr i).data := by
  simp only [logId, String.data_append, List.append_assoc,
    List.singleton_append]

theorem completeId_data (t : Nat) :
    (completeId t).data = (Nat.repr t).data ++ '-' :: "complete".data := by
  simp only [completeId, String.data_append]

theorem logId_inj {t1 i t2 j : Nat} (h : logId t1 i = logId t2 j) : i = j := by
  have hd : (logId t1 i).data = (logId t2 j).data := by rw [h]
  rw [logId_data, logId_data] at hd
  obtain ⟨-, h2⟩ :=
    append_dash_inj _ _ _ _ (repr_no_dash t1) (repr_no_dash t2) hd
  exact repr_data_inj h2

theorem logId_ne_completeId (t1 i t2 : Nat) : logId t1 i ≠ completeId t2 := by
  intro h
  have hd : (logId t1 i).data = (completeId t2).data := by rw [h]
  rw [logId_data, completeId_data] at hd
  obtain ⟨-, h2⟩ :=
    append_dash_inj _ _ _ _ (repr_no_dash t1) (repr_no_dash t2) hd
  have hc : 'c' ∈ (Nat.repr i).data := by rw [h2]; decide
  exact absurd (repr_data_digits i 'c' hc) (by decide)

theorem frameList_map_id (ts : Nat → Nat) :
    ∀ (l : List LogEntry) (i : Nat),
      (frameList ts l i).map Frame.id
        = (List.range' i l.length).map fun j => logId (ts j) j
  | [], _ => rfl
  | e :: rest, i => by
    simp only [frameList, List.length_cons, List.range'_succ, List.map_cons,
      mkLogFrame]
    rw [frameList_map_id ts rest (i + 1)]

theorem logIds_complete_nodup (ts : Nat → Nat) (k : Nat) (t : Nat) :
    (((List.range' 0 k).map fun j => logId (ts j) j)
        ++ [completeId t]).Nodup := by
  rw [List.nodup_append]
  refine ⟨?_, List.nodup_singleton _, ?_⟩
  · exact List.Nodup.map (fun a b hab => logId_inj hab) (List.nodup_range' 0 k)
  · intro x hx hx2
    obtain ⟨j, _, rfl⟩ := List.mem_map.mp hx
    rw [List.mem_singleton] at hx2
    exact logId_ne_completeId _ _ _ hx2

/-- Dispatch of the streaming route when both query parameters parse:
headers first, then the streaming body. -/
theorem do_GET_stream (iv cp : Option String) (ivs : String) (c : Int)
    (hiv : parseIntervalParam iv = some ivs)
    (hcp : parseCountParam cp = some c)
    (ts : Nat → Nat) (nowStr : String) (wr : Nat → WriteResult) :
    do_GET ⟨mockStreamPath, iv, cp⟩ ts nowStr wr
      = sseHeaders ++ streamBody ivs c ts nowStr wr := by
  simp [do_GET, hiv, hcp]

theorem framesOf_complete_single (t : Nat) (nowStr : String) (c : Int) :
    framesOf [Event.writeFrame (mkCompleteFrame t nowStr c)]
      = [mkCompleteFrame t nowStr c] := rfl

/-- All frames of a stream in which every write succeeds, for any parsed
count: the sliced catalog as log frames, then the completion frame. -/
theorem framesOf_do_GET_allOk (iv cp : Option String) (ivs : String) (c : Int)
    (hiv : parseIntervalParam iv = some ivs)
    (hcp : parseCountParam cp = some c)
    (ts : Nat → Nat) (nowStr : String) :
    framesOf (do_GET ⟨mockStreamPath, iv, cp⟩ ts nowStr allOk)
      = frameList ts (pySlice mock_logs (min c 12)) 0
          ++ [mkCompleteFrame (ts (pySlice mock_logs (min c 12)).length)
                nowStr (min c 12)] := by
  rw [do_GET_stream iv cp ivs c hiv hcp ts nowStr allOk, framesOf_append,
    framesOf_sseHeaders, List.nil_append]
  rcases le_or_lt 0 c with hc | hc
  · have h0 : 0 ≤ min c 12 := by omega
    have hsl : pySlice mock_logs (min c 12)
        = mock_logs.take (min c 12).toNat := by
      simp [pySlice, h0]
    have hklen : (mock_logs.take (min c 12).toNat).length
        = (min c 12).toNat := by
      rw [List.length_take, mock_logs_length]; omega
    rw [streamBody_allOk_nonneg ivs c hc ts nowStr, framesOf_append,
      framesOf_pacedTrace, framesOf_complete_single, hsl, hklen]
  · have hm : min c 12 = c := by omega
    have hneg : ¬ (0 ≤ c) := by omega
    have hsl : pySlice mock_logs c = mock_logs.take (12 - (-c).toNat) := by
      simp [pySlice, hneg, mock_logs_length]
    have hklen : (mock_logs.take (12 - (-c).toNat)).length
        = 12 - (-c).toNat := by
      rw [List.length_take, mock_logs_length]; omega
    rw [hm, streamBody_allOk_neg ivs c hc ts nowStr, framesOf_append,
      framesOf_writeTrace, framesOf_complete_single, hsl, hklen]

/-- Splitting the frames of a trace whose frames are log frames followed by
one completion frame. -/
theorem frames_shape_split (tr : List Event) (ts : Nat → Nat)
    (l : List LogEntry) (i : Nat) (t : Nat) (nowStr : String) (c : Int)
    (h : framesOf tr = frameList ts l i ++ [mkCompleteFrame t nowStr c]) :
    logFramesOf tr = frameList ts l i
      ∧ completeFramesOf tr = [mkCompleteFrame t nowStr c] := by
  constructor
  · rw [logFramesOf, h, List.filter_append, frameList_filter_log]
    simp [mkCompleteFrame]
  · rw [completeFramesOf, h, List.filter_append, frameList_filter_complete]
    simp [mkCompleteFrame]

/-! ### A write failure mid-stream -/

/-- Paced trace of the frames successfully written before a failure: each
frame is followed by its suspension (every index here is below `count - 1`). -/
def pacedFront (intervalMs : String) (ts : Nat → Nat) :
    List LogEntry → Nat → List Event
  | [], _ => []
  | e :: rest, i =>
    Event.writeFrame (mkLogFrame e (ts i) i) :: Event.sleep intervalMs ::
      pacedFront intervalMs ts rest (i + 1)

/-- The failing write attempt at index `f`: the attempted frame, then the
local log line printed by the matching `except` clause, and nothing else. -/
def failEvents (ts : Nat → Nat) (f : Nat) (msg : String) :
    List LogEntry → List Event
  | [] => []
  | e :: _ => [Event.writeFrame (mkLogFrame e (ts f) f), Event.printLog msg]

theorem streamLoop_fail (intervalMs : String) (c : Int) (ts : Nat → Nat)
    (wr : Nat → WriteResult) (f : Nat)
    (hok : ∀ j, j < f → wr j = .ok) (hf : wr f ≠ .ok)
    (hfc : (f : Int) < c) :
    ∀ (l : List LogEntry) (i : Nat), i ≤ f → f < i + l.length →
      streamLoop intervalMs c ts wr l i
        = (pacedFront intervalMs ts (l.take (f - i)) i
            ++ failEvents ts f (errMsgOf (wr f)) (l.drop (f - i)), false) := by
  intro l
  induction l with
  | nil => intro i hif hfl; simp at hfl; omega
  | cons e rest ih =>
    intro i hif hfl
    simp only [List.length_cons] at hfl
    by_cases hie : i = f
    · subst hie
      rcases hwr : wr i with _ | _ | m
      · exact absurd hwr hf
      · have step : streamLoop intervalMs c ts wr (e :: rest) i
            = ([.writeFrame (mkLogFrame e (ts i) i),
                .printLog brokenPipeMsg], false) := by
          simp [streamLoop, hwr]
        rw [step]
        simp [failEvents, pacedFront, errMsgOf, hwr, Nat.sub_self]
      · have step : streamLoop intervalMs c ts wr (e :: rest) i
            = ([.writeFrame (mkLogFrame e (ts i) i),
                .printLog (sseErrorMsg m)], false) := by
          simp [streamLoop, hwr]
        rw [step]
        simp [failEvents, pacedFront, errMsgOf, hwr, Nat.sub_self]
    · have hilt : i < f := by omega
      have hwi : wr i = .ok := hok i hilt
      have hc2 : (i : Int) < c - 1 := by omega
      have step : streamLoop intervalMs c ts wr (e :: rest) i
          = (Event.writeFrame (mkLogFrame e (ts i) i) ::
              ((if (i : Int) < c - 1 then [Event.sleep intervalMs] else [])
                ++ (streamLoop intervalMs c ts wr rest (i + 1)).1),
             (streamLoop intervalMs c ts wr rest (i + 1)).2) := by
        simp [streamLoop, hwi]
      have ih2 := ih (i + 1) (by omega) (by omega)
      have hfi : f - i = (f - (i + 1)) + 1 := by omega
      rw [step, ih2, if_pos hc2, hfi]
      simp [pacedFront, List.take_succ_cons, List.drop_succ_cons]

/-- Trace of the streaming body when the `f`-th frame write is the first to
fail (`f` strictly inside the emission sequence): the paced frames before
`f`, the failing attempt, one local log line, and no completion frame. -/
theorem streamBody_fail (intervalMs : String) (c : Int) (hc : 0 ≤ c)
    (ts : Nat → Nat) (nowStr : String) (wr : Nat → WriteResult) (f : Nat)
    (hok : ∀ j, j < f → wr j = .ok) (hf : wr f ≠ .ok)
    (hfk : f < (min c 12).toNat) :
    streamBody intervalMs c ts nowStr wr
      = pacedFront intervalMs ts ((mock_logs.take (min c 12).toNat).take f) 0
          ++ failEvents ts f (errMsgOf (wr f))
              ((mock_logs.take (min c 12).toNat).drop f) := by
  have hlen : (mock_logs.length : Int) = 12 := by decide
  have h0 : 0 ≤ min c 12 := by omega
  have hsl : pySlice mock_logs (min c 12)
      = mock_logs.take (min c 12).toNat := by
    simp [pySlice, h0]
  have hklen : (mock_logs.take (min c 12).toNat).length = (min c 12).toNat := by
    rw [List.length_take, mock_logs_length]; omega
  have hloop := streamLoop_fail intervalMs (min c 12) ts wr f hok hf
    (by omega) (mock_logs.take (min c 12).toNat) 0 (by omega)
    (by rw [hklen]; omega)
  simp only [streamBody, hlen, hsl, hloop]
  simp

theorem raiseError_not_mem_pacedFront (intervalMs : String) (ts : Nat → Nat) :
    ∀ (l : List LogEntry) (i : Nat),
      Event.raiseError ∉ pacedFront intervalMs ts l i
  | [], _ => by simp [pacedFront]
  | e :: rest, i => by
    have ih := raiseError_not_mem_pacedFront intervalMs ts rest (i + 1)
    simp [pacedFront, ih]

theorem raiseError_not_mem_failEvents (ts : Nat → Nat) (f : Nat)
    (msg : String) (l : List LogEntry) :
    Event.raiseError ∉ failEvents ts f msg l := by
  cases l <;> simp [failEvents]

theorem framesOf_pacedFront (intervalMs : String) (ts : Nat → Nat) :
    ∀ (l : List LogEntry) (i : Nat),
      framesOf (pacedFront intervalMs ts l i) = frameList ts l i
  | [], _ => rfl
  | e :: rest, i => by
    have ih := framesOf_pacedFront intervalMs ts rest (i + 1)
    show framesOf (Event.writeFrame (mkLogFrame e (ts i) i) ::
      Event.sleep intervalMs :: pacedFront intervalMs ts rest (i + 1))
        = mkLogFrame e (ts i) i :: frameList ts rest (i + 1)
    rw [framesOf_writeFrame_cons, framesOf_sleep_cons, ih]

theorem framesOf_failEvents_cons (ts : Nat → Nat) (f : Nat) (msg : String)
    (e : LogEntry) (rest : List LogEntry) :
    framesOf (failEvents ts f msg (e :: rest)) = [mkLogFrame e (ts f) f] := rfl

/-- Frames of a stream whose requested count is a plain `k ≤ 12`. -/
theorem framesOf_do_GET_small (iv cp : Option String) (ivs : String) (k : Nat)
    (hiv : parseIntervalParam iv = some ivs)
    (hcp : parseCountParam cp = some (k : Int)) (hk : k ≤ 12)
    (ts : Nat → Nat) (nowStr : String) :
    framesOf (do_GET ⟨mockStreamPath, iv, cp⟩ ts nowStr allOk)
      = frameList ts (mock_logs.take k) 0
          ++ [mkCompleteFrame (ts k) nowStr (k : Int)] := by
  have hm : min (k : Int) 12 = (k : Int) := by omega
  have hsl : pySlice mock_logs (k : Int) = mock_logs.take k := by
    simp [pySlice, Int.natCast_nonneg]
  have hlen2 : (mock_logs.take k).length = k := by
    rw [List.length_take, mock_logs_length]; omega
  have h := framesOf_do_GET_allOk iv cp ivs (k : Int) hiv hcp ts nowStr
  rw [hm, hsl, hlen2] at h
  exact h

/-! ### The claims -/

/-- C1: for every k with 1 ≤ k ≤ 12, a GET to the mock-stream route with
count=k (and a well-formed interval) emits exactly k `log` frames whose
payloads are the first k catalog entries in catalog order, followed by
exactly one `complete` frame, with no frames written after it. -/
theorem C1_first_k_then_complete (iv cp : Option String) (ivs : String)
    (k : Nat) (hiv : parseIntervalParam iv = some ivs)
    (hcp : parseCountParam cp = some (k : Int))
    (h1 : 1 ≤ k) (h2 : k ≤ 12) (ts : Nat → Nat) (nowStr : String) :
    (logFramesOf (do_GET ⟨mockStreamPath, iv, cp⟩ ts nowStr allOk)).map
        Frame.payload = (mock_logs.take k).map FramePayload.log
      ∧ (logFramesOf (do_GET ⟨mockStreamPath, iv, cp⟩ ts nowStr allOk)).length
          = k
      ∧ completeFramesOf (do_GET ⟨mockStreamPath, iv, cp⟩ ts nowStr allOk)
          = [mkCompleteFrame (ts k) nowStr (k : Int)]
      ∧ framesOf (do_GET ⟨mockStreamPath, iv, cp⟩ ts nowStr allOk)
          = logFramesOf (do_GET ⟨mockStreamPath, iv, cp⟩ ts nowStr allOk)
            ++ completeFramesOf (do_GET ⟨mockStreamPath, iv, cp⟩ ts nowStr allOk)
    := by
  have hfr := framesOf_do_GET_small iv cp ivs k hiv hcp h2 ts nowStr
  obtain ⟨hlog, hcomp⟩ := frames_shape_split _ ts _ 0 _ nowStr _ hfr
  refine ⟨?_, ?_, hcomp, ?_⟩
  · rw [hlog, frameList_map_payload]
  · rw [hlog, frameList_length, List.length_take, mock_logs_length]; omega
  · rw [hfr, hlog, hcomp]

/-- Witness for C1 at k = 5, default interval, zero clock. -/
theorem C1_witness :
    (logFramesOf (do_GET ⟨mockStreamPath, none, some "5"⟩ (fun _ => 0) "T"
        allOk)).map Frame.payload = (mock_logs.take 5).map FramePayload.log
      ∧ (logFramesOf (do_GET ⟨mockStreamPath, none, some "5"⟩ (fun _ => 0) "T"
          allOk)).length = 5
      ∧ completeFramesOf (do_GET ⟨mockStreamPath, none, some "5"⟩ (fun _ => 0)
          "T" allOk) = [mkCompleteFrame 0 "T" (5 : Int)]
      ∧ framesOf (do_GET ⟨mockStreamPath, none, some "5"⟩ (fun _ => 0) "T"
          allOk)
          = logFramesOf (do_GET ⟨mockStreamPath, none, some "5"⟩ (fun _ => 0)
              "T" allOk)
            ++ completeFramesOf (do_GET ⟨mockStreamPath, none, some "5"⟩
                (fun _ => 0) "T" allOk) :=
  C1_first_k_then_complete none (some "5") "1000" 5 (by decide) (by decide)
    (by decide) (by decide) (fun _ => 0) "T"

/-- C2 counterexample: with count=-3 the stream emits 9 log frames but the
completion payload's totalLogs is -3, so totalLogs does not always equal
the number of log frames emitted. -/
theorem C2_counterexample :
    ¬ (∀ fr ∈ completeFramesOf (do_GET ⟨mockStreamPath, none, some "-3"⟩
          (fun _ => 0) "T" allOk),
        totalLogsOf fr = some
          ((logFramesOf (do_GET ⟨mockStreamPath, none, some "-3"⟩
              (fun _ => 0) "T" allOk)).length : Int)) := by
  decide

/-- C2 (amended): for every stream whose requested count parses to a
non-negative integer (including the default), the totalLogs field of the
completion payload equals the number of `log` frames actually emitted. -/
theorem C2_totalLogs_correct_nonneg (iv cp : Option String) (ivs : String)
    (c : Int) (hiv : parseIntervalParam iv = some ivs)
    (hcp : parseCountParam cp = some c) (hc : 0 ≤ c)
    (ts : Nat → Nat) (nowStr : String) :
    ∀ fr ∈ completeFramesOf (do_GET ⟨mockStreamPath, iv, cp⟩ ts nowStr allOk),
      totalLogsOf fr = some
        ((logFramesOf (do_GET ⟨mockStreamPath, iv, cp⟩ ts nowStr allOk)).length
          : Int) := by
  have hfr := framesOf_do_GET_allOk iv cp ivs c hiv hcp ts nowStr
  obtain ⟨hlog, hcomp⟩ := frames_shape_split _ ts _ 0 _ nowStr _ hfr
  intro fr hmem
  rw [hcomp, List.mem_singleton] at hmem
  subst hmem
  have h0 : 0 ≤ min c 12 := by omega
  have hsl : pySlice mock_logs (min c 12)
      = mock_logs.take (min c 12).toNat := by
    simp [pySlice, h0]
  rw [hlog, frameList_length, hsl, List.length_take, mock_logs_length]
  simp only [totalLogsOf, mkCompleteFrame]
  congr 1
  omega

/-- Witness for the amended C2 at count 7: the completion frame of that
stream carries totalLogs equal to its log-frame count. -/
theorem C2_witness :
    totalLogsOf (mkCompleteFrame 0 "T" (7 : Int)) = some
      ((logFramesOf (do_GET ⟨mockStreamPath, none, some "7"⟩ (fun _ => 0)
          "T" allOk)).length : Int) :=
  C2_totalLogs_correct_nonneg none (some "7") "1000" 7 (by decide) (by decide)
    (by decide) (fun _ => 0) "T" (mkCompleteFrame 0 "T" (7 : Int)) (by decide)

/-- C3 counterexample: count=-3 is ≤ 0 yet the stream emits log frames
(nine of them), refuting "zero log frames for every count ≤ 0". -/
theorem C3_counterexample :
    ¬ (logFramesOf (do_GET ⟨mockStreamPath, none, some "-3"⟩ (fun _ => 0) "T"
        allOk) = []) := by
  decide

/-- C3 (amended): for requested count c ≤ 0, the stream emits zero log
frames when c = 0 and `(12 + c).toNat` log frames when c < 0 (Python's
negative-slice semantics, so zero only once c ≤ -12), and in every case
exactly one `complete` frame follows, with no frames after it. -/
theorem C3_nonpos_count (iv cp : Option String) (ivs : String) (c : Int)
    (hiv : parseIntervalParam iv = some ivs)
    (hcp : parseCountParam cp = some c) (hc : c ≤ 0)
    (ts : Nat → Nat) (nowStr : String) :
    (logFramesOf (do_GET ⟨mockStreamPath, iv, cp⟩ ts nowStr allOk)).length
        = (if c = 0 then 0 else (12 + c).toNat)
      ∧ completeFramesOf (do_GET ⟨mockStreamPath, iv, cp⟩ ts nowStr allOk)
          = [mkCompleteFrame (ts (if c = 0 then 0 else (12 + c).toNat))
              nowStr c]
      ∧ framesOf (do_GET ⟨mockStreamPath, iv, cp⟩ ts nowStr allOk)
          = logFramesOf (do_GET ⟨mockStreamPath, iv, cp⟩ ts nowStr allOk)
            ++ completeFramesOf (do_GET ⟨mockStreamPath, iv, cp⟩ ts nowStr
                allOk) := by
  have hfr := framesOf_do_GET_allOk iv cp ivs c hiv hcp ts nowStr
  have hm : min c 12 = c := by omega
  rw [hm] at hfr
  by_cases h0 : c = 0
  · subst h0
    have hsl : pySlice mock_logs 0 = mock_logs.take 0 := by
      simp [pySlice]
    rw [hsl, List.take_zero, List.length_nil] at hfr
    obtain ⟨hlog, hcomp⟩ := frames_shape_split _ ts _ 0 _ nowStr _ hfr
    rw [if_pos rfl]
    exact ⟨by rw [hlog]; rfl, hcomp, by rw [hfr, hlog, hcomp]⟩
  · have hneg : ¬ (0 ≤ c) := by omega
    have heq : 12 - (-c).toNat = (12 + c).toNat := by omega
    have hsl : pySlice mock_logs c = mock_logs.take (12 + c).toNat := by
      simp [pySlice, hneg, mock_logs_length, heq]
    have hlen : (mock_logs.take (12 + c).toNat).length = (12 + c).toNat := by
      rw [List.length_take, mock_logs_length]; omega
    rw [hsl, hlen] at hfr
    obtain ⟨hlog, hcomp⟩ := frames_shape_split _ ts _ 0 _ nowStr _ hfr
    rw [if_neg h0]
    exact ⟨by rw [hlog, frameList_length, hlen], hcomp,
      by rw [hfr, hlog, hcomp]⟩

/-- Witness for the amended C3 at count -3 (nine log frames). -/
theorem C3_witness :
    (logFramesOf (do_GET ⟨mockStreamPath, none, some "-3"⟩ (fun _ => 0) "T"
        allOk)).length = (if (-3 : Int) = 0 then 0 else ((12 : Int) + -3).toNat)
      ∧ completeFramesOf (do_GET ⟨mockStreamPath, none, some "-3"⟩
          (fun _ => 0) "T" allOk)
          = [mkCompleteFrame 0 "T" (-3 : Int)]
      ∧ framesOf (do_GET ⟨mockStreamPath, none, some "-3"⟩ (fun _ => 0) "T"
          allOk)
          = logFramesOf (do_GET ⟨mockStreamPath, none, some "-3"⟩ (fun _ => 0)
              "T" allOk)
            ++ completeFramesOf (do_GET ⟨mockStreamPath, none, some "-3"⟩
                (fun _ => 0) "T" allOk) :=
  C3_nonpos_count none (some "-3") "1000" (-3) (by decide) (by decide)
    (by decide) (fun _ => 0) "T"

/-- C4: a malformed `interval` (here `interval=abc`) does NOT produce a 400
before any streaming headers — the handler sends the 200 status line and
the `text/event-stream` headers first and then lets the parse failure
escape as an uncaught exception.  This evaluates the code at the failing
input; the claim (and §7/§9 of the spec) calls for a 400 first, so the code
contradicts the documented intent. -/
theorem C4_malformed_interval_after_headers :
    do_GET ⟨mockStreamPath, some "abc", none⟩ (fun _ => 0) "T" allOk
        = sseHeaders ++ [Event.raiseError]
      ∧ Event.sendStatus 400
          ∉ do_GET ⟨mockStreamPath, some "abc", none⟩ (fun _ => 0) "T" allOk
      ∧ Event.sendHeader "Content-Type" "text/event-stream"
          ∈ do_GET ⟨mockStreamPath, some "abc", none⟩ (fun _ => 0) "T" allOk
      ∧ do_GET ⟨mockStreamPath, none, some "xyz"⟩ (fun _ => 0) "T" allOk
          = sseHeaders ++ [Event.raiseError] := by
  decide

/-- C5 counterexample: a GET to the mock-stream route with taskId
`other-task` is answered by the 404 responder — no `text/event-stream`
header and no frames — refuting "for every taskId string". -/
theorem C5_counterexample :
    Event.sendStatus 404
        ∈ do_GET ⟨"/api/v1/log-streaming/test/mock-stream/other-task", none,
            none⟩ (fun _ => 0) "T" allOk
      ∧ framesOf (do_GET ⟨"/api/v1/log-streaming/test/mock-stream/other-task",
            none, none⟩ (fun _ => 0) "T" allOk) = []
      ∧ Event.sendHeader "Content-Type" "text/event-stream"
          ∉ do_GET ⟨"/api/v1/log-streaming/test/mock-stream/other-task", none,
              none⟩ (fun _ => 0) "T" allOk := by
  decide

/-- C5 (amended): only the fixed taskId `test-task-123` is dispatched to the
streaming responder — that request yields the ordered paced log frames and
one `complete` frame — while any other path (hence any other taskId) falls
through to the 404 responder. -/
theorem C5_only_fixed_taskId (ts : Nat → Nat) (nowStr : String) (p : String)
    (hp1 : p ≠ mockStreamPath) (hp2 : p ≠ healthPath) :
    do_GET ⟨mockStreamPath, none, none⟩ ts nowStr allOk
        = sseHeaders ++ (pacedTrace "1000" ts mock_logs 0
            ++ [Event.writeFrame (mkCompleteFrame (ts 12) nowStr 12)])
      ∧ Event.sendStatus 404 ∈ do_GET ⟨p, none, none⟩ ts nowStr allOk := by
  constructor
  · rw [do_GET_stream none none "1000" 12 rfl (by decide) ts nowStr allOk,
      streamBody_allOk_nonneg "1000" 12 (by omega) ts nowStr]
    have h1 : (min (12 : Int) 12).toNat = 12 := by decide
    have h2 : min (12 : Int) 12 = 12 := by decide
    have h3 : mock_logs.take 12 = mock_logs := rfl
    rw [h1, h2, h3]
  · simp [do_GET, hp1, hp2, corsHeaders]

/-- Witness for the amended C5 with taskId `other-task`. -/
theorem C5_witness :
    do_GET ⟨mockStreamPath, none, none⟩ (fun _ => 0) "T" allOk
        = sseHeaders ++ (pacedTrace "1000" (fun _ => 0) mock_logs 0
            ++ [Event.writeFrame (mkCompleteFrame 0 "T" 12)])
      ∧ Event.sendStatus 404
          ∈ do_GET ⟨"/api/v1/log-streaming/test/mock-stream/other-task", none,
              none⟩ (fun _ => 0) "T" allOk :=
  C5_only_fixed_taskId (fun _ => 0) "T"
    "/api/v1/log-streaming/test/mock-stream/other-task" (by decide) (by decide)

/-- C6: for every requested count greater than the catalog length (12),
the emitted log frames are clamped to exactly the whole catalog. -/
theorem C6_count_clamped (iv cp : Option String) (ivs : String) (c : Int)
    (hiv : parseIntervalParam iv = some ivs)
    (hcp : parseCountParam cp = some c) (hc : 12 < c)
    (ts : Nat → Nat) (nowStr : String) :
    (logFramesOf (do_GET ⟨mockStreamPath, iv, cp⟩ ts nowStr allOk)).length
        = 12
      ∧ (logFramesOf (do_GET ⟨mockStreamPath, iv, cp⟩ ts nowStr allOk)).map
          Frame.payload = mock_logs.map FramePayload.log := by
  have hfr := framesOf_do_GET_allOk iv cp ivs c hiv hcp ts nowStr
  have hm : min c 12 = 12 := by omega
  have hsl : pySlice mock_logs (12 : Int) = mock_logs := rfl
  rw [hm, hsl] at hfr
  obtain ⟨hlog, hcomp⟩ := frames_shape_split _ ts _ 0 _ nowStr _ hfr
  exact ⟨by rw [hlog, frameList_length, mock_logs_length],
    by rw [hlog, frameList_map_payload]⟩

/-- Witness for C6 at count 999. -/
theorem C6_witness :
    (logFramesOf (do_GET ⟨mockStreamPath, none, some "999"⟩ (fun _ => 0) "T"
        allOk)).length = 12
      ∧ (logFramesOf (do_GET ⟨mockStreamPath, none, some "999"⟩ (fun _ => 0)
          "T" allOk)).map Frame.payload = mock_logs.map FramePayload.log :=
  C6_count_clamped none (some "999") "1000" 999 (by decide) (by decide)
    (by decide) (fun _ => 0) "T"

/-- C7: within a single stream the id strings of all frames written (log
frames and the completion frame) are pairwise distinct, for every sequence
of clock values `ts` and every parsed count. -/
theorem C7_frame_ids_unique (iv cp : Option String) (ivs : String) (c : Int)
    (hiv : parseIntervalParam iv = some ivs)
    (hcp : parseCountParam cp = some c)
    (ts : Nat → Nat) (nowStr : String) :
    ((framesOf (do_GET ⟨mockStreamPath, iv, cp⟩ ts nowStr allOk)).map
        Frame.id).Nodup := by
  rw [framesOf_do_GET_allOk iv cp ivs c hiv hcp ts nowStr, List.map_append,
    frameList_map_id]
  have hone : ([mkCompleteFrame (ts (pySlice mock_logs (min c 12)).length)
      nowStr (min c 12)]).map Frame.id
      = [completeId (ts (pySlice mock_logs (min c 12)).length)] := rfl
  rw [hone]
  exact logIds_complete_nodup ts _ _

/-- Witness for C7 with a constant clock (the worst case for uniqueness)
and the default count. -/
theorem C7_witness :
    ((framesOf (do_GET ⟨mockStreamPath, none, none⟩ (fun _ => 7) "T"
        allOk)).map Frame.id).Nodup :=
  C7_frame_ids_unique none none "1000" 12 (by decide) (by decide)
    (fun _ => 7) "T"

/-- C8: if the write of frame `f` is the first to fail mid-stream (client
disconnect or any other write failure), the responder attempts no further
frame writes — exactly the f successful frames plus the one failing attempt
appear — logs the event locally (the `failEvents` tail is the attempted
frame followed by the `except`-clause log line), and no error escapes the
handler. -/
theorem C8_write_failure_aborts (iv cp : Option String) (ivs : String)
    (c : Int) (hiv : parseIntervalParam iv = some ivs)
    (hcp : parseCountParam cp = some c) (hc : 0 ≤ c)
    (wr : Nat → WriteResult) (f : Nat)
    (hok : ∀ j, j < f → wr j = .ok) (hf : wr f ≠ .ok)
    (hfk : f < (min c 12).toNat) (ts : Nat → Nat) (nowStr : String) :
    do_GET ⟨mockStreamPath, iv, cp⟩ ts nowStr wr
        = sseHeaders
            ++ (pacedFront ivs ts ((mock_logs.take (min c 12).toNat).take f) 0
              ++ failEvents ts f (errMsgOf (wr f))
                  ((mock_logs.take (min c 12).toNat).drop f))
      ∧ (framesOf (do_GET ⟨mockStreamPath, iv, cp⟩ ts nowStr wr)).length
          = f + 1
      ∧ Event.raiseError ∉ do_GET ⟨mockStreamPath, iv, cp⟩ ts nowStr wr := by
  have htr : do_GET ⟨mockStreamPath, iv, cp⟩ ts nowStr wr
      = sseHeaders
          ++ (pacedFront ivs ts ((mock_logs.take (min c 12).toNat).take f) 0
            ++ failEvents ts f (errMsgOf (wr f))
                ((mock_logs.take (min c 12).toNat).drop f)) := by
    rw [do_GET_stream iv cp ivs c hiv hcp ts nowStr wr,
      streamBody_fail ivs c hc ts nowStr wr f hok hf hfk]
  have hlen : (mock_logs.take (min c 12).toNat).length = (min c 12).toNat := by
    rw [List.length_take, mock_logs_length]; omega
  refine ⟨htr, ?_, ?_⟩
  · have hne : (mock_logs.take (min c 12).toNat).drop f ≠ [] := by
      intro h
      have hl := congrArg List.length h
      rw [List.length_drop, hlen] at hl
      simp at hl
      omega
    obtain ⟨e, r, he⟩ := List.exists_cons_of_ne_nil hne
    rw [htr, framesOf_append, framesOf_sseHeaders, List.nil_append,
      framesOf_append, framesOf_pacedFront, he, framesOf_failEvents_cons,
      List.length_append, frameList_length, List.length_take, hlen]
    simp
    omega
  · rw [htr]
    intro hmem
    rcases List.mem_append.mp hmem with h1 | h2
    · exact (by decide : Event.raiseError ∉ sseHeaders) h1
    · rcases List.mem_append.mp h2 with h3 | h4
      · exact raiseError_not_mem_pacedFront ivs ts _ 0 h3
      · exact raiseError_not_mem_failEvents ts f _ _ h4

/-- Write oracle in which the fourth write (index 3) hits a broken pipe. -/
def failAt3 : Nat → WriteResult := fun j => if j = 3 then .brokenPipe else .ok

/-- Witness for C8: disconnect at frame 3 of a 12-frame stream. -/
theorem C8_witness :
    do_GET ⟨mockStreamPath, none, some "12"⟩ (fun _ => 0) "T" failAt3
        = sseHeaders
            ++ (pacedFront "1000" (fun _ => 0)
                ((mock_logs.take (min (12 : Int) 12).toNat).take 3) 0
              ++ failEvents (fun _ => 0) 3 (errMsgOf (failAt3 3))
                  ((mock_logs.take (min (12 : Int) 12).toNat).drop 3))
      ∧ (framesOf (do_GET ⟨mockStreamPath, none, some "12"⟩ (fun _ => 0) "T"
          failAt3)).length = 3 + 1
      ∧ Event.raiseError ∉ do_GET ⟨mockStreamPath, none, some "12"⟩
          (fun _ => 0) "T" failAt3 :=
  C8_write_failure_aborts none (some "12") "1000" 12 (by decide) (by decide)
    (by decide) failAt3 3 (by intro j hj; interval_cases j <;> rfl)
    (by decide) (by decide) (fun _ => 0) "T"

/-- C9 counterexample: the count=-3 stream has nine (≥ 2) log frames but
performs no pacing suspension at all, refuting "a suspension occurs between
each adjacent pair of log frames in every stream of k ≥ 1 log frames". -/
theorem C9_counterexample :
    2 ≤ (logFramesOf (do_GET ⟨mockStreamPath, none, some "-3"⟩ (fun _ => 0)
        "T" allOk)).length
      ∧ sleepCount (do_GET ⟨mockStreamPath, none, some "-3"⟩ (fun _ => 0) "T"
          allOk) = 0 := by
  decide

/-- C9 (amended): for every stream with requested count ≥ 1, the trace is
exactly the paced trace — one suspension of the requested interval between
each adjacent pair of log frames, none after the final log frame, and the
`complete` frame immediately after — so the k-frame stream contains exactly
k - 1 suspensions.  (Streams with negative requested count emit their
frames with no interposed suspensions.) -/
theorem C9_paced_between_frames (iv cp : Option String) (ivs : String)
    (c : Int) (hiv : parseIntervalParam iv = some ivs)
    (hcp : parseCountParam cp = some c) (hc : 1 ≤ c)
    (ts : Nat → Nat) (nowStr : String) :
    do_GET ⟨mockStreamPath, iv, cp⟩ ts nowStr allOk
        = sseHeaders ++ (pacedTrace ivs ts (mock_logs.take (min c 12).toNat) 0
            ++ [Event.writeFrame (mkCompleteFrame (ts (min c 12).toNat)
                nowStr (min c 12))])
      ∧ sleepCount (do_GET ⟨mockStreamPath, iv, cp⟩ ts nowStr allOk)
          = (min c 12).toNat - 1 := by
  have htr : do_GET ⟨mockStreamPath, iv, cp⟩ ts nowStr allOk
      = sseHeaders ++ (pacedTrace ivs ts (mock_logs.take (min c 12).toNat) 0
          ++ [Event.writeFrame (mkCompleteFrame (ts (min c 12).toNat)
              nowStr (min c 12))]) := by
    rw [do_GET_stream iv cp ivs c hiv hcp ts nowStr allOk,
      streamBody_allOk_nonneg ivs c (by omega) ts nowStr]
  refine ⟨htr, ?_⟩
  have h1 : sleepCount sseHeaders = 0 := by decide
  have h2 : sleepCount [Event.writeFrame (mkCompleteFrame (ts (min c 12).toNat)
      nowStr (min c 12))] = 0 := rfl
  rw [htr, sleepCount_append, sleepCount_append, sleepCount_pacedTrace,
    List.length_take, mock_logs_length, h1, h2]
  omega

/-- Witness for the amended C9 at count 3 with interval 250. -/
theorem C9_witness :
    do_GET ⟨mockStreamPath, some "250", some "3"⟩ (fun _ => 0) "T" allOk
        = sseHeaders ++ (pacedTrace "250" (fun _ => 0)
            (mock_logs.take (min (3 : Int) 12).toNat) 0
            ++ [Event.writeFrame (mkCompleteFrame 0 "T" (min (3 : Int) 12))])
      ∧ sleepCount (do_GET ⟨mockStreamPath, some "250", some "3"⟩ (fun _ => 0)
          "T" allOk) = (min (3 : Int) 12).toNat - 1 :=
  C9_paced_between_frames (some "250") (some "3") "250" 3 (by decide)
    (by decide) (by decide) (fun _ => 0) "T"

/-- C10 (implicit): for every requested count c with -12 < c < 0, the
stream emits exactly `(12 + c).toNat` log frames — the catalog minus its
last |c| entries, by Python's negative-slice semantics — followed by one
`complete` frame whose totalLogs field is the negative value c itself. -/
theorem C10_small_negative (iv cp : Option String) (ivs : String) (c : Int)
    (hiv : parseIntervalParam iv = some ivs)
    (hcp : parseCountParam cp = some c) (h1 : -12 < c) (h2 : c < 0)
    (ts : Nat → Nat) (nowStr : String) :
    (logFramesOf (do_GET ⟨mockStreamPath, iv, cp⟩ ts nowStr allOk)).length
        = (12 + c).toNat
      ∧ (logFramesOf (do_GET ⟨mockStreamPath, iv, cp⟩ ts nowStr allOk)).map
          Frame.payload
          = (mock_logs.take (12 + c).toNat).map FramePayload.log
      ∧ completeFramesOf (do_GET ⟨mockStreamPath, iv, cp⟩ ts nowStr allOk)
          = [mkCompleteFrame (ts ((12 + c).toNat)) nowStr c] := by
  have hfr := framesOf_do_GET_allOk iv cp ivs c hiv hcp ts nowStr
  have hm : min c 12 = c := by omega
  have hneg : ¬ (0 ≤ c) := by omega
  have heq : 12 - (-c).toNat = (12 + c).toNat := by omega
  have hsl : pySlice mock_logs c = mock_logs.take (12 + c).toNat := by
    simp [pySlice, hneg, mock_logs_length, heq]
  have hlen : (mock_logs.take (12 + c).toNat).length = (12 + c).toNat := by
    rw [List.length_take, mock_logs_length]; omega
  rw [hm, hsl, hlen] at hfr
  obtain ⟨hlog, hcomp⟩ := frames_shape_split _ ts _ 0 _ nowStr _ hfr
  exact ⟨by rw [hlog, frameList_length, hlen],
    by rw [hlog, frameList_map_payload], hcomp⟩

/-- Witness for C10 at count -3 (nine log frames, totalLogs = -3). -/
theorem C10_witness :
    (logFramesOf (do_GET ⟨mockStreamPath, none, some "-3"⟩ (fun _ => 0) "T"
        allOk)).length = ((12 : Int) + -3).toNat
      ∧ (logFramesOf (do_GET ⟨mockStreamPath, none, some "-3"⟩ (fun _ => 0)
          "T" allOk)).map Frame.payload
          = (mock_logs.take ((12 : Int) + -3).toNat).map FramePayload.log
      ∧ completeFramesOf (do_GET ⟨mockStreamPath, none, some "-3"⟩
          (fun _ => 0) "T" allOk)
          = [mkCompleteFrame 0 "T" (-3 : Int)] :=
  C10_small_negative none (some "-3") "1000" (-3) (by decide) (by decide)
    (by decide) (by decide) (fun _ => 0) "T"

end OttoSSE
